import Mathlib

/-!
Verification of the core of the JotBird Obsidian plugin (jotbirdhq/obsidian-jotbird).

The development shallowly embeds the two algorithmic subsystems of the plugin:

* the markdown transformation pipeline of `src/markdown.ts`
  (`stripFrontmatter`, `stripComments`, `convertWikiLinks`, `stripTags`,
  image-reference resolution), modelled as executable functions on `List Char`
  that mirror the JavaScript regex scans character by character, and

* the publish reconciliation engine of `src/main.ts`
  (`publishFile` retry-on-not-found, `claimAnonymousDocuments`,
  `writeFrontmatter`, the rename/delete vault handlers, and the Pro-tier
  refresh logic), modelled with explicit state passing; the JavaScript
  object `publishedNotes` is modelled as an association list with unique keys,
  and remote calls are modelled as explicit `Except` outcomes.

Scanning functions take a fuel argument (instantiated with the input length by
their wrappers) so that every definition is structurally recursive and
evaluates by `decide`.
-/

namespace JotBird

/-- Lookup in an association list, mirroring a JavaScript object property read
(`obj[k]`): the first binding of the key wins. -/
def lookupKey {α : Type} (m : List (String × α)) (k : String) : Option α :=
  (m.find? (fun p => p.1 == k)).map (fun p => p.2)

/-- Assignment `obj[k] = v` on a JavaScript object: replace the binding if the
key is present, otherwise append a new binding (JS objects keep insertion
order, and re-assignment keeps the original position). -/
def setKey {α : Type} : List (String × α) → String → α → List (String × α)
  | [], k, v => [(k, v)]
  | (k', v') :: rest, k, v =>
    if k' == k then (k, v) :: rest else (k', v') :: setKey rest k v

/-- Deletion `delete obj[k]` on a JavaScript object: remove the binding of the
key (keys of a JS object are unique, so removing the first occurrence suffices). -/
def eraseKey {α : Type} : List (String × α) → String → List (String × α)
  | [], _ => []
  | (k', v') :: rest, k =>
    if k' == k then rest else (k', v') :: eraseKey rest k

theorem lookupKey_nil {α : Type} (q : String) : lookupKey ([] : List (String × α)) q = none := by
  simp [lookupKey]

theorem lookupKey_cons {α : Type} (k' : String) (v' : α) (tl : List (String × α)) (q : String) :
    lookupKey ((k', v') :: tl) q = if k' = q then some v' else lookupKey tl q := by
  by_cases h : k' = q
  · subst h
    simp [lookupKey, List.find?]
  · have hb : (k' == q) = false := by simpa using h
    simp [lookupKey, List.find?, hb, h]

theorem lookupKey_setKey_self {α : Type} (m : List (String × α)) (k : String) (v : α) :
    lookupKey (setKey m k v) k = some v := by
  induction m with
  | nil => simp [setKey, lookupKey_cons, lookupKey_nil]
  | cons hd tl ih =>
    obtain ⟨k', v'⟩ := hd
    by_cases h : k' = k
    · subst h
      simp [setKey, lookupKey_cons]
    · simp [setKey, h, lookupKey_cons, ih]

theorem lookupKey_setKey_ne {α : Type} (m : List (String × α)) (k q : String) (v : α)
    (h : q ≠ k) : lookupKey (setKey m k v) q = lookupKey m q := by
  induction m with
  | nil => simp [setKey, lookupKey_cons, lookupKey_nil, Ne.symm h]
  | cons hd tl ih =>
    obtain ⟨k', v'⟩ := hd
    by_cases h' : k' = k
    · subst h'
      simp [setKey, lookupKey_cons, Ne.symm h]
    · simp [setKey, h', lookupKey_cons, ih]

theorem lookupKey_eraseKey_ne {α : Type} (m : List (String × α)) (k q : String)
    (h : q ≠ k) : lookupKey (eraseKey m k) q = lookupKey m q := by
  induction m with
  | nil => simp [eraseKey]
  | cons hd tl ih =>
    obtain ⟨k', v'⟩ := hd
    by_cases h' : k' = k
    · subst h'
      simp [eraseKey, lookupKey_cons, Ne.symm h]
    · simp [eraseKey, h', lookupKey_cons, ih]

theorem notMem_keys_lookupKey_none {α : Type} (m : List (String × α)) (k : String)
    (h : k ∉ m.map Prod.fst) : lookupKey m k = none := by
  induction m with
  | nil => simp [lookupKey]
  | cons hd tl ih =>
    obtain ⟨k', v'⟩ := hd
    simp only [List.map_cons, List.mem_cons] at h
    push_neg at h
    simp [lookupKey_cons, Ne.symm h.1, ih h.2]

theorem lookupKey_eraseKey_self {α : Type} (m : List (String × α)) (k : String)
    (hnd : (m.map Prod.fst).Nodup) : lookupKey (eraseKey m k) k = none := by
  induction m with
  | nil => simp [eraseKey, lookupKey]
  | cons hd tl ih =>
    obtain ⟨k', v'⟩ := hd
    simp only [List.map_cons, List.nodup_cons] at hnd
    by_cases h' : k' = k
    · subst h'
      exact (by simpa [eraseKey] using notMem_keys_lookupKey_none tl k' hnd.1)
    · simp [eraseKey, h', lookupKey_cons, ih hnd.2]

theorem keys_setKey {α : Type} (m : List (String × α)) (k : String) (v : α) :
    (setKey m k v).map Prod.fst =
      (if k ∈ m.map Prod.fst then m.map Prod.fst else m.map Prod.fst ++ [k]) := by
  induction m with
  | nil => simp [setKey]
  | cons hd tl ih =>
    obtain ⟨k', v'⟩ := hd
    by_cases h' : k' = k
    · subst h'
      simp [setKey]
    · simp only [setKey, beq_iff_eq, h', if_false, List.map_cons, ih]
      by_cases hm : k ∈ tl.map Prod.fst
      · simp [hm, Ne.symm h']
      · simp [hm, Ne.symm h']

theorem keys_setKey_nodup {α : Type} (m : List (String × α)) (k : String) (v : α)
    (hnd : (m.map Prod.fst).Nodup) : ((setKey m k v).map Prod.fst).Nodup := by
  rw [keys_setKey]
  by_cases hm : k ∈ m.map Prod.fst
  · simpa [hm] using hnd
  · simp only [hm, if_false]
    simpa [List.nodup_append, hm] using hnd

theorem lookupKey_some_mem {α : Type} (m : List (String × α)) (k : String) (v : α)
    (h : lookupKey m k = some v) : (k, v) ∈ m := by
  induction m with
  | nil => simp [lookupKey] at h
  | cons hd tl ih =>
    obtain ⟨k', v'⟩ := hd
    by_cases h' : k' = k
    · subst h'
      rw [lookupKey_cons] at h
      simp at h
      simp [h]
    · rw [lookupKey_cons, if_neg h'] at h
      exact List.mem_cons_of_mem _ (ih h)

theorem lookupKey_some_mem_keys {α : Type} (m : List (String × α)) (k : String) (v : α)
    (h : lookupKey m k = some v) : k ∈ m.map Prod.fst := by
  have := lookupKey_some_mem m k v h
  exact List.mem_map.mpr ⟨(k, v), this, rfl⟩

/-- Does one list occur as a leading segment of another?  Used to implement
substring search over character lists. -/
def leadsWith : List Char → List Char → Bool
  | [], _ => true
  | _ :: _, [] => false
  | a :: as, b :: bs => a == b && leadsWith as bs

/-- Substring containment over character lists (`pat` occurs somewhere in the
second argument). -/
def containsSub (pat : List Char) : List Char → Bool
  | [] => pat.isEmpty
  | c :: rest => leadsWith pat (c :: rest) || containsSub pat rest

/-- `String.prototype.endsWith` from JavaScript, on `String`. -/
def endsWithStr (s suffix : String) : Bool :=
  leadsWith suffix.data.reverse s.data.reverse

/-- An entry of `publishedNotes` (`PublishedNote` in `src/types.ts`): the local
record of a published document.  A present `editToken` marks anonymous
ownership. -/
structure PublishedNote where
  slug : String
  url : String
  editToken : Option String
  publishedAt : String
deriving DecidableEq, Repr

/-- The body of a successful create-or-update response (`PublishResponse` in
`src/types.ts`); `ttlDays = none` models the JSON `null` of the permanent
tier. -/
structure PublishResult where
  slug : String
  url : String
  editToken : Option String
  expiresAt : Option String
  ttlDays : Option Nat
deriving DecidableEq, Repr

/-- The optional `slug` / `editToken` arguments that `publishFile` passes to a
`publishNote` / `trialPublish` call (`undefined` modelled as `none`). -/
structure PublishRequest where
  slug : Option String
  editToken : Option String
deriving DecidableEq, Repr

/-- The not-found test of `publishFile` (`src/main.ts`):
`/not found/i.test(e.message)`, i.e. a case-insensitive substring search for
"not found" in the error message. -/
def isNotFoundMsg (msg : String) : Bool :=
  containsSub "not found".data (msg.data.map Char.toLower)

/-- The slug/token arguments of the first call in `publishFile`: the existing
record's slug, and (on the anonymous `trialPublish` path only) the existing
record's edit token. -/
def firstPublishRequest (hasApiKey : Bool) (existing : Option PublishedNote) : PublishRequest :=
  { slug := existing.map (fun n => n.slug),
    editToken := if hasApiKey then none else existing.bind (fun n => n.editToken) }

/-- The retry call of `publishFile`: a fresh create, with no slug and no edit
token on either path. -/
def freshPublishRequest : PublishRequest :=
  { slug := none, editToken := none }

/-- The try/catch around the remote call in `publishFile` (`src/main.ts`):
issue the first call; if it throws and a record exists and the message matches
the not-found test, retry exactly once as a fresh create; otherwise rethrow.
The first and (potential) second remote outcomes are passed in explicitly.
Returns the list of requests issued and either the successful result (tagged
with whether it came from the retry) or the surfaced error message. -/
def publishAttempt (hasApiKey : Bool) (existing : Option PublishedNote)
    (first second : Except String PublishResult) :
    List PublishRequest × Except String (PublishResult × Bool) :=
  match first with
  | .ok r => ([firstPublishRequest hasApiKey existing], .ok (r, false))
  | .error e =>
    if existing.isSome && isNotFoundMsg e then
      match second with
      | .ok r => ([firstPublishRequest hasApiKey existing, freshPublishRequest], .ok (r, true))
      | .error e2 => ([firstPublishRequest hasApiKey existing, freshPublishRequest], .error e2)
    else
      ([firstPublishRequest hasApiKey existing], .error e)

/-- The effect of `publishFile` on `publishedNotes`: on a successful outcome
the record for the path is upserted with the returned slug, url, and edit
token and a fresh timestamp; on a failed outcome (the outer catch) the mapping
is left untouched.  Returns the updated mapping, the issued requests, and the
outcome. -/
def publishFileModel (notes : List (String × PublishedNote)) (path : String)
    (hasApiKey : Bool) (now : String) (first second : Except String PublishResult) :
    List (String × PublishedNote) × List PublishRequest × Except String (PublishResult × Bool) :=
  let existing := lookupKey notes path
  let res := publishAttempt hasApiKey existing first second
  match res.2 with
  | .ok (r, retried) =>
      (setKey notes path { slug := r.slug, url := r.url, editToken := r.editToken, publishedAt := now },
       res.1, .ok (r, retried))
  | .error e => (notes, res.1, .error e)

/-- The body of a successful `claimDocument` response (`ClaimResponse` in
`src/types.ts`). -/
structure ClaimResult where
  slug : String
  url : String
  expiresAt : Option String
  ttlDays : Option Nat
deriving DecidableEq, Repr

/-- The loop body of `claimAnonymousDocuments` (`src/main.ts`), iterating over
the snapshot `toClaim` of token-carrying entries while updating the live
`publishedNotes` mapping: a successful claim replaces the record with the
server's fresh slug/url, drops the edit token and keeps the original
timestamp; a failed claim is caught and skipped.  Also returns the
(slug, editToken) pairs sent to the remote claim endpoint, in order. -/
def claimSweepGo (remote : String → String → Except String ClaimResult) :
    List (String × PublishedNote) → List (String × PublishedNote) →
    List (String × PublishedNote) × List (String × String)
  | [], notes => (notes, [])
  | (p, n) :: rest, notes =>
    match n.editToken with
    | some tok =>
      let notes' :=
        match remote n.slug tok with
        | .ok r =>
            setKey notes p { slug := r.slug, url := r.url, editToken := none,
                             publishedAt := n.publishedAt }
        | .error _ => notes
      let res := claimSweepGo remote rest notes'
      (res.1, (n.slug, tok) :: res.2)
    | none => claimSweepGo remote rest notes

/-- `claimAnonymousDocuments` (`src/main.ts`): filter the entries that still
carry an edit token and run the claim sweep over that snapshot. -/
def claimAnonymousDocuments (remote : String → String → Except String ClaimResult)
    (notes : List (String × PublishedNote)) :
    List (String × PublishedNote) × List (String × String) :=
  claimSweepGo remote (notes.filter (fun pn => pn.2.editToken.isSome)) notes

/-- JavaScript falsiness of the `ttlDays` field (`number | null`): both `null`
and `0` are falsy, so both select the "never" branch in `writeFrontmatter` and
the Pro-refresh branch in `publishFile`. -/
def ttlFalsy : Option Nat → Bool
  | none => true
  | some 0 => true
  | some (_ + 1) => false

/-- The `jotbird_expires` value computed by `writeFrontmatter`
(`src/main.ts`): `!ttlDays ? "never" : expiresAt.slice(0, 10)`. -/
def expiresValue (expiresAt : String) (ttlDays : Option Nat) : String :=
  if ttlFalsy ttlDays then "never" else String.mk (expiresAt.data.take 10)

/-- The frontmatter mutation of `writeFrontmatter` (`src/main.ts`), on the
parsed header modelled as a key/value list: delete and re-add
`jotbird_link`/`jotbird_expires` (so the link appears before the expiration),
then delete the three legacy property names. -/
def writeFrontmatterFM (fm : List (String × String)) (url expiresAt : String)
    (ttlDays : Option Nat) : List (String × String) :=
  let fm1 := eraseKey (eraseKey fm "jotbird_link") "jotbird_expires"
  let fm2 := setKey fm1 "jotbird_link" url
  let fm3 := setKey fm2 "jotbird_expires" (expiresValue expiresAt ttlDays)
  eraseKey (eraseKey (eraseKey fm3 "jotbird_url") "jotbird_slug") "jotbird_published"

/-- The vault `rename` handler registered in `onload` (`src/main.ts`): if a
record exists at the old path, assign it to the new path and delete the old
key; otherwise do nothing. -/
def handleRename (notes : List (String × PublishedNote)) (oldPath newPath : String) :
    List (String × PublishedNote) :=
  match lookupKey notes oldPath with
  | some r => eraseKey (setKey notes newPath r) oldPath
  | none => notes

/-- The vault `delete` handler registered in `onload` (`src/main.ts`): remove
the record at the deleted path if one exists. -/
def handleDelete (notes : List (String × PublishedNote)) (path : String) :
    List (String × PublishedNote) :=
  if (lookupKey notes path).isSome then eraseKey notes path else notes

/-- The per-session plugin state relevant to the Pro-tier refresh logic of
`src/main.ts`: the observed tier, the one-shot `proRefreshDone` flag, the
`storeFrontmatter` setting, the tracked records, and — per document path —
the `jotbird_expires` value currently mirrored in its metadata header. -/
structure SessionState where
  isPro : Bool
  proRefreshDone : Bool
  storeFrontmatter : Bool
  notes : List (String × PublishedNote)
  expires : List (String × String)
deriving DecidableEq, Repr

/-- The header effect of `refreshProExpiration excludePath` (`src/main.ts`):
for every tracked record other than the excluded path, call
`writeFrontmatter file note.url "" 0`, which (since `0` is falsy) rewrites the
mirrored expiration to `"never"`.  Every tracked path is assumed to resolve to
a file in the vault. -/
def sweepNever (hs : List (String × String)) (notes : List (String × PublishedNote))
    (excludePath : String) : List (String × String) :=
  notes.foldl (fun h pn => if pn.1 == excludePath then h else setKey h pn.1 "never") hs

/-- The session-level operations that can observe the account tier:
a successful publish of `path` whose response is `r`, a bare status check
(`checkProStatus`) whose remote call reports `remoteIsPro`, and the
`upgraded=1` protocol redirect (`handleProUpgrade`) whose inner status check
reports `remoteIsPro`. -/
inductive ProOp where
  | publish (path : String) (r : PublishResult)
  | statusCheck (remoteIsPro : Bool)
  | proUpgrade (remoteIsPro : Bool)
deriving DecidableEq, Repr

/-- Whether an operation is a publish. -/
def ProOp.isPublish : ProOp → Bool
  | .publish _ _ => true
  | _ => false

/-- One session step of the tier logic in `src/main.ts`.  A successful publish
upserts the record, mirrors its own header (when `storeFrontmatter`), and — if
the response's `ttlDays` is falsy and `proRefreshDone` is not yet set — sets
the flag and runs `refreshProExpiration` over the other records.
`checkProStatus` only records the reported tier.  `handleProUpgrade` re-checks
the tier and, whenever it observes Pro, sets the flag and runs
`refreshProExpiration ""` (with no guard on `proRefreshDone`).  The returned
`Bool` reports whether `refreshProExpiration` was invoked by this step. -/
def stepPro (s : SessionState) : ProOp → SessionState × Bool
  | .publish path r =>
    let notes' := setKey s.notes path
      { slug := r.slug, url := r.url, editToken := r.editToken, publishedAt := "" }
    let hs1 := if s.storeFrontmatter then
        setKey s.expires path (expiresValue (r.expiresAt.getD "") r.ttlDays)
      else s.expires
    if ttlFalsy r.ttlDays && !s.proRefreshDone then
      let hs2 := if s.storeFrontmatter then sweepNever hs1 notes' path else hs1
      ({ s with notes := notes', proRefreshDone := true, expires := hs2 }, true)
    else
      ({ s with notes := notes', expires := hs1 }, false)
  | .statusCheck b => ({ s with isPro := b }, false)
  | .proUpgrade b =>
    if b then
      let hs2 := if s.storeFrontmatter then sweepNever s.expires s.notes "" else s.expires
      ({ s with isPro := true, proRefreshDone := true, expires := hs2 }, true)
    else ({ s with isPro := false }, false)

/-- Run a sequence of session operations, counting how many of them are
publishes that invoked `refreshProExpiration`. -/
def runPro (s : SessionState) : List ProOp → SessionState × Nat
  | [] => (s, 0)
  | op :: ops =>
    let st := stepPro s op
    let rest := runPro st.1 ops
    (rest.1, (if st.2 && op.isPublish then 1 else 0) + rest.2)

/-- A vault file as seen by the image resolver of `src/markdown.ts`: its full
path and its base file name. -/
structure VFile where
  path : String
  name : String
deriving DecidableEq, Repr

/-- The predicate inside `vault.getFiles().find(...)` in
`resolveAndUploadImage` (`src/markdown.ts`):
`f.path === fileName || f.name === fileName || f.path.endsWith("/" + fileName)`. -/
def fileMatchesName (fileName : String) (f : VFile) : Bool :=
  f.path == fileName || f.name == fileName || endsWithStr f.path ("/" ++ fileName)

/-- The file-resolution step of `resolveAndUploadImage` (`src/markdown.ts`):
a single `find` over the vault's enumeration order with the disjunction of the
three criteria. -/
def resolveImageFile (files : List VFile) (fileName : String) : Option VFile :=
  files.find? (fileMatchesName fileName)

/-- Modelled from the spec ("Resolve the referenced name against the document
store using, in order: exact path equality, exact filename equality, suffix
match against `\"/\" + name`"): staged resolution that exhausts each criterion
over the whole store before trying the next.  Used only to compare the spec's
staged order against the implementation's single disjunctive scan. -/
def resolveImageStaged (files : List VFile) (fileName : String) : Option VFile :=
  match files.find? (fun f => f.path == fileName) with
  | some f => some f
  | none =>
    match files.find? (fun f => f.name == fileName) with
    | some f => some f
    | none => files.find? (fun f => endsWithStr f.path ("/" ++ fileName))

/-- JavaScript ASCII whitespace, as matched by `\s` and removed by
`String.prototype.trim` (space, tab, line feed, carriage return, vertical tab,
form feed). -/
def isJsWs (c : Char) : Bool :=
  c == ' ' || c == '\t' || c == '\n' || c == '\r' || c == '\u000B' || c == '\u000C'

/-- A character of the tag body (word characters, slash, hyphen) in the tag regex of `stripTags`
(`src/markdown.ts`): word characters plus slash and hyphen. -/
def isTagChar (c : Char) : Bool :=
  ('a' ≤ c && c ≤ 'z') || ('A' ≤ c && c ≤ 'Z') || ('0' ≤ c && c ≤ '9')
    || c == '_' || c == '/' || c == '-'

/-- `String.prototype.trim`: drop leading and trailing whitespace. -/
def trimL (l : List Char) : List Char :=
  ((l.dropWhile isJsWs).reverse.dropWhile isJsWs).reverse

/-- The `\r?\n` right after the opening `---` of the frontmatter regex in
`stripFrontmatter` (`src/markdown.ts`); returns the remaining text. -/
def eatNl : List Char → Option (List Char)
  | '\r' :: '\n' :: r => some r
  | '\n' :: r => some r
  | _ => none

/-- The trailing `\r?\n?` of the frontmatter regex: greedily consume an
optional carriage return and an optional line feed. -/
def eatCrLfOpt : List Char → List Char
  | '\r' :: '\n' :: v => v
  | '\r' :: v => v
  | '\n' :: v => v
  | v => v

/-- The lazy search for the closing `\r?\n---\r?\n?` of the frontmatter regex:
scan for the earliest position where the closing delimiter starts, and return
the text after the whole match. -/
def fmClose : List Char → Option (List Char)
  | '\r' :: '\n' :: '-' :: '-' :: '-' :: r => some (eatCrLfOpt r)
  | '\n' :: '-' :: '-' :: '-' :: r => some (eatCrLfOpt r)
  | _ :: r => fmClose r
  | [] => none

/-- `stripFrontmatter` (`src/markdown.ts`): if the content starts with the
pattern `^---\r?\n[\s\S]*?\r?\n---\r?\n?`, drop the matched span; otherwise
return the content unchanged. -/
def stripFrontmatterL (l : List Char) : List Char :=
  match l with
  | '-' :: '-' :: '-' :: t =>
    (match eatNl t with
     | some body =>
       (match fmClose body with
        | some rest => rest
        | none => l)
     | none => l)
  | _ => l

/-- Search for the closing `%%` of a comment span: returns the text after it,
or `none` when the span is unbalanced. -/
def splitClose : List Char → Option (List Char)
  | '%' :: '%' :: r => some r
  | _ :: r => splitClose r
  | [] => none

/-- The global scan of `stripComments` (`src/markdown.ts`),
`md.replace(/%%[\s\S]*?%%/g, "")`: at each position, if a `%%` opens here and
a closing `%%` follows, drop the balanced span and continue after it;
otherwise keep the character and move on.  Structurally recursive on a fuel
argument; its wrapper passes the input length, which bounds the number of
scan steps. -/
def stripCommentsGo : Nat → List Char → List Char
  | 0, _ => []
  | _ + 1, [] => []
  | fuel + 1, '%' :: '%' :: rest =>
    (match splitClose rest with
     | some rest' => stripCommentsGo fuel rest'
     | none => '%' :: stripCommentsGo fuel ('%' :: rest))
  | fuel + 1, c :: rest => c :: stripCommentsGo fuel rest

/-- `stripComments` (`src/markdown.ts`). -/
def stripCommentsL (l : List Char) : List Char :=
  stripCommentsGo l.length l

/-- Characters allowed in the target of an aliased wiki link (`[^\]|]`). -/
def notTargetEnd (c : Char) : Bool :=
  !(c == ']' || c == '|')

/-- Characters allowed before the closing bracket (`[^\]]`). -/
def notBracketEnd (c : Char) : Bool :=
  !(c == ']')

/-- Match the aliased wiki-link regex `\[\[([^\]|]+)\|([^\]]+)\]\]` at the
start of the text; on success return the alias (the replacement `$2`) and the
text after the match. -/
def parseAliased : List Char → Option (List Char × List Char)
  | '[' :: '[' :: t =>
    let tgt := t.takeWhile notTargetEnd
    let t1 := t.dropWhile notTargetEnd
    if tgt.isEmpty then none
    else
      match t1 with
      | '|' :: u =>
        let al := u.takeWhile notBracketEnd
        let u1 := u.dropWhile notBracketEnd
        if al.isEmpty then none
        else
          match u1 with
          | ']' :: ']' :: v => some (al, v)
          | _ => none
      | _ => none
  | _ => none

/-- Match the plain wiki-link regex `\[\[([^\]]+)\]\]` at the start of the
text; on success return the target (the replacement `$1`) and the text after
the match. -/
def parsePlain : List Char → Option (List Char × List Char)
  | '[' :: '[' :: t =>
    let tgt := t.takeWhile notBracketEnd
    let t1 := t.dropWhile notBracketEnd
    if tgt.isEmpty then none
    else
      match t1 with
      | ']' :: ']' :: v => some (tgt, v)
      | _ => none
  | _ => none

/-- A global regex replace scan: at each position try the matcher; on a match
emit its replacement and continue after the match (replacements are not
rescanned), otherwise keep the character.  Fuel bounds the number of steps;
wrappers pass the input length. -/
def wikiReplaceGo (parse : List Char → Option (List Char × List Char)) :
    Nat → List Char → List Char
  | 0, _ => []
  | _ + 1, [] => []
  | fuel + 1, c :: rest =>
    match parse (c :: rest) with
    | some res => res.1 ++ wikiReplaceGo parse fuel res.2
    | none => c :: wikiReplaceGo parse fuel rest

/-- `convertWikiLinks` (`src/markdown.ts`): replace aliased links first, then
plain links, each as a full global pass. -/
def convertWikiLinksL (l : List Char) : List Char :=
  let m1 := wikiReplaceGo parseAliased l.length l
  wikiReplaceGo parsePlain m1.length m1

/-- Whether position `i` is a line start for the multiline anchor `^` (start
of the string, or right after a line feed). -/
def atLineStart (orig : List Char) (i : Nat) : Bool :=
  i == 0 || orig.getD (i - 1) 'x' == '\n'

/-- Scan a list keeping the position right after the last line feed seen. -/
def lineStartGo : List Char → Nat → Nat → Nat
  | [], _, acc => acc
  | c :: r, j, acc => lineStartGo r (j + 1) (if c == '\n' then j + 1 else acc)

/-- `str.lastIndexOf("\n", offset - 1) + 1` in the `stripTags` callback: the
start of the line containing position `i`. -/
def lineStartPos (orig : List Char) (i : Nat) : Nat :=
  lineStartGo (orig.take i) 0 0

/-- The heading test of the `stripTags` callback (`src/markdown.ts`): take the
line content from the line start up to and including the matched prefix (of
length `p`), trim it, and check it is a non-empty run of at most six `#`
characters.  When the test holds the callback returns the whole match (the
tag is kept). -/
def headingGuard (orig : List Char) (i p : Nat) : Bool :=
  let ls := lineStartPos orig i
  let t := trimL ((orig.drop ls).take (i + p - ls))
  !t.isEmpty && t.all (fun c => c == '#') && decide (t.length ≤ 6)

/-- The lookahead-plus-body test after the `#`: the next character must be a
tag-body character (this is equivalent to the `(?!#|\s)` lookahead followed by
a non-empty tag body). -/
def headIsTag : List Char → Bool
  | c :: _ => isTagChar c
  | [] => false

/-- The global multiline scan of `stripTags` (`src/markdown.ts`),
the global multiline replace whose pattern is a line start or whitespace
prefix, a hash not followed by another hash or whitespace, and a non-empty
tag body, with a callback replacement.  At position `i` the
`^` alternative is tried first (empty prefix at a line start), then the `\s`
alternative (a one-character whitespace prefix).  On a match the callback
either keeps the whole match (when `headingGuard` holds) or emits only the
prefix, and scanning continues after the match.  `orig` is the whole input
(the callback inspects it), `i` the current offset, and fuel (instantiated
with the input length) bounds the number of steps. -/
def stripTagsGo (orig : List Char) : Nat → Nat → List Char → List Char
  | _, 0, _ => []
  | _, _ + 1, [] => []
  | i, fuel + 1, c :: rest =>
    if c == '#' && atLineStart orig i && headIsTag rest then
      let tag := rest.takeWhile isTagChar
      let after := rest.dropWhile isTagChar
      if headingGuard orig i 0 then
        c :: (tag ++ stripTagsGo orig (i + 1 + tag.length) fuel after)
      else
        stripTagsGo orig (i + 1 + tag.length) fuel after
    else
      match rest with
      | '#' :: r2 =>
        if isJsWs c && headIsTag r2 then
          let tag := r2.takeWhile isTagChar
          let after := r2.dropWhile isTagChar
          if headingGuard orig i 1 then
            c :: '#' :: (tag ++ stripTagsGo orig (i + 2 + tag.length) fuel after)
          else
            c :: stripTagsGo orig (i + 2 + tag.length) fuel after
        else
          c :: stripTagsGo orig (i + 1) fuel rest
      | _ => c :: stripTagsGo orig (i + 1) fuel rest

/-- `stripTags` (`src/markdown.ts`). -/
def stripTagsL (l : List Char) : List Char :=
  stripTagsGo l 0 l.length l

/-- `processMarkdown` (`src/markdown.ts`) on content whose image pass is the
identity: strip the frontmatter, strip comments, (the image upload step
rewrites nothing when the content has no local image references — both image
regexes require the literal `![`), convert wiki links, optionally strip tags,
and trim the result. -/
def processMarkdownNoImages (shouldStripTags : Bool) (l : List Char) : List Char :=
  let m1 := stripFrontmatterL l
  let m2 := stripCommentsL m1
  let m3 := convertWikiLinksL m2
  let m4 := if shouldStripTags then stripTagsL m3 else m3
  trimL m4

theorem head?_dropWhile_false (p : Char → Bool) (l : List Char) :
    ∀ c, (l.dropWhile p).head? = some c → p c = false := by
  induction l with
  | nil => intro c hc; simp at hc
  | cons a t ih =>
    intro c hc
    by_cases hp : p a = true
    · rw [List.dropWhile_cons_of_pos hp] at hc
      exact ih c hc
    · rw [List.dropWhile_cons_of_neg hp] at hc
      simp at hc
      rw [← hc]
      simpa using hp

theorem dropWhile_eq_self_of_head? (p : Char → Bool) (l : List Char)
    (h : ∀ c, l.head? = some c → p c = false) : l.dropWhile p = l := by
  cases l with
  | nil => simp
  | cons a t => exact List.dropWhile_cons_of_neg (by simp [h a rfl])

theorem head?_append_left (l t : List Char) (c : Char) (h : l.head? = some c) :
    (l ++ t).head? = some c := by
  cases l with
  | nil => simp at h
  | cons a u => simpa using h

theorem dropWhile_trimL (l : List Char) :
    List.dropWhile isJsWs (trimL l) = trimL l := by
  apply dropWhile_eq_self_of_head?
  intro c hc
  obtain ⟨t, ht⟩ := List.rdropWhile_prefix isJsWs (List.dropWhile isJsWs l)
  have hA : (List.dropWhile isJsWs l).head? = some c := by
    rw [← ht]
    exact head?_append_left _ _ _ hc
  exact head?_dropWhile_false isJsWs l c hA

theorem trimL_idem (l : List Char) : trimL (trimL l) = trimL l := by
  have h1 : trimL (trimL l) = List.rdropWhile isJsWs (List.dropWhile isJsWs (trimL l)) := rfl
  rw [h1, dropWhile_trimL]
  show List.rdropWhile isJsWs (List.rdropWhile isJsWs (List.dropWhile isJsWs l))
      = List.rdropWhile isJsWs (List.dropWhile isJsWs l)
  exact List.rdropWhile_idempotent _ _

theorem trimL_processMarkdown (flag : Bool) (l : List Char) :
    trimL (processMarkdownNoImages flag l) = processMarkdownNoImages flag l :=
  trimL_idem _

/-- Claim C2, counterexample: the markdown transformation is not idempotent on
image-free content.  On the input consisting of a space, `---`, a line `a`,
`---`, and a line `b` (which contains no local image reference — both image
regexes require the literal `![`), the first application only trims the
leading space, which exposes a metadata header at the very start; the second
application then strips that header, so applying the transformation twice
differs from applying it once. -/
theorem processMarkdown_twice_differs :
    containsSub "![".data " ---\na\n---\nb".data = false ∧
    processMarkdownNoImages false (processMarkdownNoImages false " ---\na\n---\nb".data)
      ≠ processMarkdownNoImages false " ---\na\n---\nb".data := by
  constructor
  · decide
  · decide

/-- Claim C2 (amended): on content with no local image references, the
transformation is idempotent provided the output of its first application is
itself left unchanged by each rewriting pass — frontmatter stripping, comment
stripping, wiki-link conversion and (when enabled) tag stripping.  In general
a second application can rewrite further, because trimming, comment removal,
or link conversion can expose new matches (e.g. a metadata header at the
start of the output). -/
theorem processMarkdown_idem_on_stable_output (flag : Bool) (l : List Char)
    (h1 : stripFrontmatterL (processMarkdownNoImages flag l) = processMarkdownNoImages flag l)
    (h2 : stripCommentsL (processMarkdownNoImages flag l) = processMarkdownNoImages flag l)
    (h3 : convertWikiLinksL (processMarkdownNoImages flag l) = processMarkdownNoImages flag l)
    (h4 : flag = true → stripTagsL (processMarkdownNoImages flag l) = processMarkdownNoImages flag l) :
    processMarkdownNoImages flag (processMarkdownNoImages flag l)
      = processMarkdownNoImages flag l := by
  show trimL (if flag then
        stripTagsL (convertWikiLinksL (stripCommentsL (stripFrontmatterL (processMarkdownNoImages flag l))))
      else convertWikiLinksL (stripCommentsL (stripFrontmatterL (processMarkdownNoImages flag l))))
      = processMarkdownNoImages flag l
  rw [h1, h2, h3]
  cases flag with
  | false =>
    simpa using trimL_processMarkdown false l
  | true =>
    rw [if_pos rfl, h4 rfl]
    exact trimL_processMarkdown true l

/-- Witness for the amended claim C2 at a concrete image-free input. -/
theorem processMarkdown_idem_on_stable_output_witness :
    processMarkdownNoImages false (processMarkdownNoImages false "hello  world".data)
      = processMarkdownNoImages false "hello  world".data :=
  processMarkdown_idem_on_stable_output false "hello  world".data
    (by decide) (by decide) (by decide) (fun h => by cases h)

/-- Claim C1: for a document with an existing record, when the first remote
call (authenticated or anonymous) fails with a message matching the not-found
test, exactly one retry is issued as a fresh create (no slug and no edit
token), and on retry success the local record for that path is replaced with
the new slug and url; when the failure message does not match, no retry occurs
and the error is surfaced unchanged. -/
theorem publishFile_retry_on_not_found
    (notes : List (String × PublishedNote)) (path : String) (n : PublishedNote)
    (hasApiKey : Bool) (now msg : String) (second : Except String PublishResult)
    (hex : lookupKey notes path = some n) :
    (isNotFoundMsg msg = true →
        (publishFileModel notes path hasApiKey now (.error msg) second).2.1
          = [firstPublishRequest hasApiKey (some n), freshPublishRequest]
        ∧ ∀ r, second = .ok r →
            lookupKey (publishFileModel notes path hasApiKey now (.error msg) second).1 path
              = some { slug := r.slug, url := r.url, editToken := r.editToken,
                       publishedAt := now })
    ∧ (isNotFoundMsg msg = false →
        (publishFileModel notes path hasApiKey now (.error msg) second).2.1
          = [firstPublishRequest hasApiKey (some n)]
        ∧ (publishFileModel notes path hasApiKey now (.error msg) second).2.2
          = .error msg) := by
  constructor
  · intro hnf
    constructor
    · cases second with
      | ok r => simp [publishFileModel, publishAttempt, hex, hnf]
      | error e2 => simp [publishFileModel, publishAttempt, hex, hnf]
    · intro r hr
      subst hr
      simp [publishFileModel, publishAttempt, hex, hnf, lookupKey_setKey_self]
  · intro hnf
    simp [publishFileModel, publishAttempt, hex, hnf]

/-- Witness for claim C1: a not-found update failure on a recorded path issues
the update call followed by exactly one fresh create, and the record is
replaced with the retry's slug and url. -/
theorem publishFile_retry_on_not_found_witness :
    (publishFileModel
        [("notes/expired.md",
          { slug := "old-expired-slug", url := "https://share.jotbird.com/old-expired-slug",
            editToken := none, publishedAt := "2025-12-01" })]
        "notes/expired.md" true "2026-01-02"
        (.error "Publish: Document not found")
        (.ok { slug := "fresh-new-slug", url := "https://share.jotbird.com/fresh-new-slug",
               editToken := none, expiresAt := some "2026-05-18", ttlDays := some 90 })).2.1
      = [firstPublishRequest true
          (some { slug := "old-expired-slug",
                  url := "https://share.jotbird.com/old-expired-slug",
                  editToken := none, publishedAt := "2025-12-01" }),
         freshPublishRequest]
    ∧ lookupKey
        (publishFileModel
          [("notes/expired.md",
            { slug := "old-expired-slug", url := "https://share.jotbird.com/old-expired-slug",
              editToken := none, publishedAt := "2025-12-01" })]
          "notes/expired.md" true "2026-01-02"
          (.error "Publish: Document not found")
          (.ok { slug := "fresh-new-slug", url := "https://share.jotbird.com/fresh-new-slug",
                 editToken := none, expiresAt := some "2026-05-18", ttlDays := some 90 })).1
        "notes/expired.md"
      = some { slug := "fresh-new-slug", url := "https://share.jotbird.com/fresh-new-slug",
               editToken := none, publishedAt := "2026-01-02" } := by
  have h := publishFile_retry_on_not_found
    [("notes/expired.md",
      { slug := "old-expired-slug", url := "https://share.jotbird.com/old-expired-slug",
        editToken := none, publishedAt := "2025-12-01" })]
    "notes/expired.md"
    { slug := "old-expired-slug", url := "https://share.jotbird.com/old-expired-slug",
      editToken := none, publishedAt := "2025-12-01" }
    true "2026-01-02" "Publish: Document not found"
    (.ok { slug := "fresh-new-slug", url := "https://share.jotbird.com/fresh-new-slug",
           editToken := none, expiresAt := some "2026-05-18", ttlDays := some 90 })
    (by decide)
  exact ⟨(h.1 (by decide)).1, (h.1 (by decide)).2 _ rfl⟩

/-- Claim C10: whenever the modelled publish ends in a failure (including a
failed retry), the published-notes mapping is returned unchanged: an existing
record keeps all its fields and an unrecorded path gains no record, since the
upsert happens only on a successful outcome. -/
theorem publishFailure_leaves_notes
    (notes : List (String × PublishedNote)) (path : String) (hasApiKey : Bool)
    (now : String) (first second : Except String PublishResult) (e : String)
    (hfail : (publishFileModel notes path hasApiKey now first second).2.2 = .error e) :
    (publishFileModel notes path hasApiKey now first second).1 = notes := by
  cases first with
  | ok r => simp [publishFileModel, publishAttempt] at hfail
  | error e1 =>
    cases hc : (lookupKey notes path).isSome && isNotFoundMsg e1 with
    | true =>
      cases second with
      | ok r => simp [publishFileModel, publishAttempt, hc] at hfail
      | error e2 => simp [publishFileModel, publishAttempt, hc]
    | false => simp [publishFileModel, publishAttempt, hc]

/-- Witness for claim C10: a rate-limit failure on a recorded path leaves the
mapping exactly as it was. -/
theorem publishFailure_leaves_notes_witness :
    (publishFileModel
        [("notes/fail.md",
          { slug := "existing-slug", url := "https://share.jotbird.com/existing-slug",
            editToken := none, publishedAt := "2026-01-01" })]
        "notes/fail.md" true "2026-01-02"
        (.error "Publish: Rate limit exceeded")
        (.error "unused")).1
      = [("notes/fail.md",
          { slug := "existing-slug", url := "https://share.jotbird.com/existing-slug",
            editToken := none, publishedAt := "2026-01-01" })] :=
  publishFailure_leaves_notes _ _ _ _ _ _ "Publish: Rate limit exceeded" rfl

theorem keys_eraseKey_sublist {α : Type} (m : List (String × α)) (k : String) :
    ((eraseKey m k).map Prod.fst).Sublist (m.map Prod.fst) := by
  induction m with
  | nil => exact List.nil_sublist _
  | cons hd tl ih =>
    obtain ⟨k', v'⟩ := hd
    by_cases h' : k' = k
    · subst h'
      have he : eraseKey ((k', v') :: tl) k' = tl := by simp [eraseKey]
      rw [he, List.map_cons]
      exact List.sublist_cons_self _ _
    · have he : eraseKey ((k', v') :: tl) k = (k', v') :: eraseKey tl k := by
        simp [eraseKey, h']
      rw [he, List.map_cons, List.map_cons]
      exact List.Sublist.cons₂ _ ih

theorem keys_eraseKey_nodup {α : Type} (m : List (String × α)) (k : String)
    (hnd : (m.map Prod.fst).Nodup) : ((eraseKey m k).map Prod.fst).Nodup :=
  hnd.sublist (keys_eraseKey_sublist m k)

/-- Claim C7, counterexample: on a response whose `ttlDays` is `0` (not
`null`), `writeFrontmatter` still mirrors the string "never" rather than the
date portion of the expiry, because the code tests JavaScript falsiness
(`!ttlDays`) instead of `ttlDays === null`; so "never" is not written exactly
when `ttlDays` is null. -/
theorem writeFrontmatter_never_on_zero_ttl :
    lookupKey
        (writeFrontmatterFM [] "https://share.jotbird.com/x"
          "2026-05-10T12:00:00.000Z" (some 0)) "jotbird_expires"
      = some "never"
    ∧ (some 0 : Option Nat) ≠ none
    ∧ ("never" : String) ≠ String.mk ("2026-05-10T12:00:00.000Z".data.take 10) := by
  refine ⟨by decide, by decide, by decide⟩

/-- Claim C7 (amended): after `writeFrontmatter`, the link key holds the
returned url, the expiration key holds "never" exactly when `ttlDays` is
falsy — `null` or `0` — and otherwise the first ten characters (the date
portion) of the expiry string, and the three legacy keys are absent. -/
theorem writeFrontmatter_values (fm : List (String × String)) (url e : String)
    (t : Option Nat) (hnd : (fm.map Prod.fst).Nodup) :
    lookupKey (writeFrontmatterFM fm url e t) "jotbird_link" = some url
    ∧ lookupKey (writeFrontmatterFM fm url e t) "jotbird_expires"
        = some (if t = none ∨ t = some 0 then "never" else String.mk (e.data.take 10))
    ∧ lookupKey (writeFrontmatterFM fm url e t) "jotbird_url" = none
    ∧ lookupKey (writeFrontmatterFM fm url e t) "jotbird_slug" = none
    ∧ lookupKey (writeFrontmatterFM fm url e t) "jotbird_published" = none := by
  have hval : expiresValue e t = if t = none ∨ t = some 0 then "never"
      else String.mk (e.data.take 10) := by
    rcases t with _ | t
    · simp [expiresValue, ttlFalsy]
    · rcases t with _ | t
      · simp [expiresValue, ttlFalsy]
      · simp [expiresValue, ttlFalsy]
  have hnd1 : (((eraseKey (eraseKey fm "jotbird_link") "jotbird_expires").map Prod.fst)).Nodup :=
    keys_eraseKey_nodup _ _ (keys_eraseKey_nodup _ _ hnd)
  have hnd2 := keys_setKey_nodup _ "jotbird_link" url hnd1
  have hnd3 := keys_setKey_nodup _ "jotbird_expires" (expiresValue e t) hnd2
  refine ⟨?_, ?_, ?_, ?_, ?_⟩
  · show lookupKey _ "jotbird_link" = some url
    rw [writeFrontmatterFM]
    rw [lookupKey_eraseKey_ne _ _ _ (by decide), lookupKey_eraseKey_ne _ _ _ (by decide),
        lookupKey_eraseKey_ne _ _ _ (by decide), lookupKey_setKey_ne _ _ _ _ (by decide),
        lookupKey_setKey_self]
  · rw [writeFrontmatterFM]
    rw [lookupKey_eraseKey_ne _ _ _ (by decide), lookupKey_eraseKey_ne _ _ _ (by decide),
        lookupKey_eraseKey_ne _ _ _ (by decide), lookupKey_setKey_self, hval]
  · rw [writeFrontmatterFM]
    rw [lookupKey_eraseKey_ne _ _ _ (by decide), lookupKey_eraseKey_ne _ _ _ (by decide)]
    exact lookupKey_eraseKey_self _ _ hnd3
  · rw [writeFrontmatterFM]
    rw [lookupKey_eraseKey_ne _ _ _ (by decide)]
    exact lookupKey_eraseKey_self _ _ (keys_eraseKey_nodup _ _ hnd3)
  · rw [writeFrontmatterFM]
    exact lookupKey_eraseKey_self _ _
      (keys_eraseKey_nodup _ _ (keys_eraseKey_nodup _ _ hnd3))

/-- Witness for the amended claim C7 at a 90-day response over a header still
carrying the legacy property names. -/
theorem writeFrontmatter_values_witness :
    lookupKey
        (writeFrontmatterFM
          [("jotbird_url", "a"), ("jotbird_slug", "b"), ("jotbird_published", "c")]
          "https://share.jotbird.com/m" "2026-05-10T12:00:00.000Z" (some 90)) "jotbird_link"
      = some "https://share.jotbird.com/m"
    ∧ lookupKey
        (writeFrontmatterFM
          [("jotbird_url", "a"), ("jotbird_slug", "b"), ("jotbird_published", "c")]
          "https://share.jotbird.com/m" "2026-05-10T12:00:00.000Z" (some 90)) "jotbird_expires"
      = some (if (some 90 : Option Nat) = none ∨ (some 90 : Option Nat) = some 0 then "never"
              else String.mk ("2026-05-10T12:00:00.000Z".data.take 10))
    ∧ lookupKey
        (writeFrontmatterFM
          [("jotbird_url", "a"), ("jotbird_slug", "b"), ("jotbird_published", "c")]
          "https://share.jotbird.com/m" "2026-05-10T12:00:00.000Z" (some 90)) "jotbird_url"
      = none
    ∧ lookupKey
        (writeFrontmatterFM
          [("jotbird_url", "a"), ("jotbird_slug", "b"), ("jotbird_published", "c")]
          "https://share.jotbird.com/m" "2026-05-10T12:00:00.000Z" (some 90)) "jotbird_slug"
      = none
    ∧ lookupKey
        (writeFrontmatterFM
          [("jotbird_url", "a"), ("jotbird_slug", "b"), ("jotbird_published", "c")]
          "https://share.jotbird.com/m" "2026-05-10T12:00:00.000Z" (some 90)) "jotbird_published"
      = none :=
  writeFrontmatter_values
    [("jotbird_url", "a"), ("jotbird_slug", "b"), ("jotbird_published", "c")]
    "https://share.jotbird.com/m" "2026-05-10T12:00:00.000Z" (some 90) (by decide)

/-- Claim C8: a rename notification moves the record from the old path to the
new path with all fields preserved and removes the old key, leaving every
other path's record untouched; a rename of an unrecorded path is a no-op.  A
delete notification removes the record at that path (a no-op when there is
none) and affects no other path.  A rename notification carries two distinct
paths. -/
theorem renameDelete_handlers_spec
    (notes : List (String × PublishedNote)) (oldPath newPath delPath : String)
    (hnd : (notes.map Prod.fst).Nodup) (hne : oldPath ≠ newPath) :
    (∀ r, lookupKey notes oldPath = some r →
        lookupKey (handleRename notes oldPath newPath) newPath = some r
        ∧ lookupKey (handleRename notes oldPath newPath) oldPath = none
        ∧ ∀ q, q ≠ oldPath → q ≠ newPath →
            lookupKey (handleRename notes oldPath newPath) q = lookupKey notes q)
    ∧ (lookupKey notes oldPath = none → handleRename notes oldPath newPath = notes)
    ∧ lookupKey (handleDelete notes delPath) delPath = none
    ∧ (∀ q, q ≠ delPath → lookupKey (handleDelete notes delPath) q = lookupKey notes q)
    ∧ (lookupKey notes delPath = none → handleDelete notes delPath = notes) := by
  refine ⟨?_, ?_, ?_, ?_, ?_⟩
  · intro r hr
    have hren : handleRename notes oldPath newPath
        = eraseKey (setKey notes newPath r) oldPath := by
      simp [handleRename, hr]
    refine ⟨?_, ?_, ?_⟩
    · rw [hren, lookupKey_eraseKey_ne _ _ _ (Ne.symm hne), lookupKey_setKey_self]
    · rw [hren]
      exact lookupKey_eraseKey_self _ _ (keys_setKey_nodup _ _ _ hnd)
    · intro q hqo hqn
      rw [hren, lookupKey_eraseKey_ne _ _ _ hqo, lookupKey_setKey_ne _ _ _ _ hqn]
  · intro h
    simp [handleRename, h]
  · cases hd : (lookupKey notes delPath).isSome with
    | true =>
      simp only [handleDelete, hd, if_true]
      exact lookupKey_eraseKey_self _ _ hnd
    | false =>
      simp only [handleDelete, hd, Bool.false_eq_true, if_false]
      cases hl : lookupKey notes delPath with
      | none => rfl
      | some v => rw [hl] at hd; simp at hd
  · intro q hq
    cases hd : (lookupKey notes delPath).isSome with
    | true =>
      simp only [handleDelete, hd, if_true]
      exact lookupKey_eraseKey_ne _ _ _ hq
    | false => simp [handleDelete, hd]
  · intro h
    simp [handleDelete, h]

/-- Witness for claim C8: renaming a recorded path moves its record and
deleting another recorded path removes that record. -/
theorem renameDelete_handlers_spec_witness :
    lookupKey
        (handleRename
          [("old/path.md",
            { slug := "my-doc", url := "https://share.jotbird.com/my-doc",
              editToken := none, publishedAt := "2026-01-01" }),
           ("notes/deleted.md",
            { slug := "deleted-doc", url := "https://share.jotbird.com/deleted-doc",
              editToken := none, publishedAt := "2026-01-01" })]
          "old/path.md" "new/path.md") "new/path.md"
      = some { slug := "my-doc", url := "https://share.jotbird.com/my-doc",
               editToken := none, publishedAt := "2026-01-01" }
    ∧ lookupKey
        (handleRename
          [("old/path.md",
            { slug := "my-doc", url := "https://share.jotbird.com/my-doc",
              editToken := none, publishedAt := "2026-01-01" }),
           ("notes/deleted.md",
            { slug := "deleted-doc", url := "https://share.jotbird.com/deleted-doc",
              editToken := none, publishedAt := "2026-01-01" })]
          "old/path.md" "new/path.md") "old/path.md"
      = none
    ∧ lookupKey
        (handleDelete
          [("old/path.md",
            { slug := "my-doc", url := "https://share.jotbird.com/my-doc",
              editToken := none, publishedAt := "2026-01-01" }),
           ("notes/deleted.md",
            { slug := "deleted-doc", url := "https://share.jotbird.com/deleted-doc",
              editToken := none, publishedAt := "2026-01-01" })]
          "notes/deleted.md") "notes/deleted.md"
      = none := by
  have h := renameDelete_handlers_spec
    [("old/path.md",
      { slug := "my-doc", url := "https://share.jotbird.com/my-doc",
        editToken := none, publishedAt := "2026-01-01" }),
     ("notes/deleted.md",
      { slug := "deleted-doc", url := "https://share.jotbird.com/deleted-doc",
        editToken := none, publishedAt := "2026-01-01" })]
    "old/path.md" "new/path.md" "notes/deleted.md" (by decide) (by decide)
  have hr := h.1
    { slug := "my-doc", url := "https://share.jotbird.com/my-doc",
      editToken := none, publishedAt := "2026-01-01" } (by decide)
  exact ⟨hr.1, hr.2.1, h.2.2.1⟩

/-- Claim C3, counterexample: image resolution does not try the three criteria
in staged order.  The implementation is one `find` over the store with the
disjunction of the criteria, so enumeration order wins: with a store holding
first a file at `x/photo.png` (matching only the filename and suffix
criteria) and then a file at `photo.png` (matching the exact-path criterion),
resolving "photo.png" returns the first file, while the staged order of the
spec would return the second; the returned file's path is not the searched
name, so a document matching only a later criterion beat the exact-path
match. -/
theorem resolveImage_order_differs_from_staged :
    resolveImageFile
        [{ path := "x/photo.png", name := "photo.png" },
         { path := "photo.png", name := "photo.png" }] "photo.png"
      = some { path := "x/photo.png", name := "photo.png" }
    ∧ resolveImageStaged
        [{ path := "x/photo.png", name := "photo.png" },
         { path := "photo.png", name := "photo.png" }] "photo.png"
      = some { path := "photo.png", name := "photo.png" }
    ∧ ("x/photo.png" : String) ≠ "photo.png" := by
  refine ⟨by decide, by decide, by decide⟩

/-- Claim C3 (amended): resolution scans the store in enumeration order and
returns the first document satisfying any of the three criteria (exact path,
exact filename, or suffix match); it fails exactly when no document satisfies
any criterion, and any returned document satisfies at least one. -/
theorem resolveImage_first_match_spec (files : List VFile) (n : String) :
    (resolveImageFile files n = none ↔ ∀ f ∈ files, fileMatchesName n f = false)
    ∧ ∀ f, resolveImageFile files n = some f → f ∈ files ∧ fileMatchesName n f = true := by
  constructor
  · rw [resolveImageFile, List.find?_eq_none]
    constructor
    · intro h f hf
      have := h f hf
      simpa using this
    · intro h f hf
      simp [h f hf]
  · intro f hf
    exact ⟨List.mem_of_find?_eq_some hf, List.find?_some hf⟩

/-- Witness for the amended claim C3: a store whose only file matches by
suffix resolves to that file, which satisfies a criterion. -/
theorem resolveImage_first_match_spec_witness :
    ({ path := "attachments/photo.png", name := "photo.png" } : VFile)
        ∈ [({ path := "attachments/photo.png", name := "photo.png" } : VFile)]
    ∧ fileMatchesName "photo.png"
        { path := "attachments/photo.png", name := "photo.png" } = true :=
  (resolveImage_first_match_spec
      [{ path := "attachments/photo.png", name := "photo.png" }] "photo.png").2
    { path := "attachments/photo.png", name := "photo.png" } (by decide)

theorem stripTagsGo_fuel_nil (orig : List Char) (i fuel : Nat) :
    stripTagsGo orig i (fuel + 1) [] = [] := rfl

theorem stripTagsGo_succ (orig : List Char) (i fuel : Nat) (c : Char) (rest : List Char) :
    stripTagsGo orig i (fuel + 1) (c :: rest) =
      (if c == '#' && atLineStart orig i && headIsTag rest then
        let tag := rest.takeWhile isTagChar
        let after := rest.dropWhile isTagChar
        if headingGuard orig i 0 then
          c :: (tag ++ stripTagsGo orig (i + 1 + tag.length) fuel after)
        else
          stripTagsGo orig (i + 1 + tag.length) fuel after
      else
        match rest with
        | '#' :: r2 =>
          if isJsWs c && headIsTag r2 then
            let tag := r2.takeWhile isTagChar
            let after := r2.dropWhile isTagChar
            if headingGuard orig i 1 then
              c :: '#' :: (tag ++ stripTagsGo orig (i + 2 + tag.length) fuel after)
            else
              c :: stripTagsGo orig (i + 2 + tag.length) fuel after
          else
            c :: stripTagsGo orig (i + 1) fuel rest
        | _ => c :: stripTagsGo orig (i + 1) fuel rest) := rfl

theorem isTagChar_ne_nl (x : Char) (hx : isTagChar x = true) : (x == '\n') = false := by
  cases h : x == '\n' with
  | false => rfl
  | true =>
    have : x = '\n' := by simpa using h
    rw [this] at hx
    simp [isTagChar] at hx

theorem isTagChar_not_ws (x : Char) (hx : isTagChar x = true) : isJsWs x = false := by
  cases h : isJsWs x with
  | false => rfl
  | true =>
    simp only [isJsWs, Bool.or_eq_true, beq_iff_eq] at h
    rcases h with ((((h | h) | h) | h) | h) | h <;> rw [h] at hx <;> simp [isTagChar] at hx

/-- Claim C4, counterexample: for the line `## #tag` — the claim's own
example of a tag embedded directly after a heading's hashes — the prefix
before the tag trims to the pure hash run `##`, so the heading test of the
callback holds and the whole match is returned unchanged: the tag is *kept*,
not removed. -/
theorem stripTags_keeps_tag_after_heading_hashes :
    stripTagsL "## #tag".data = "## #tag".data := by decide

/-- Claim C4 (amended): a tag whose trimmed line prefix contains, besides the
heading's hashes, at least one further hash-content sequence is still
stripped — e.g. the second tag in `## #x #y` is removed (while the first tag,
directly after the heading's hashes, is preserved).  Stated for arbitrary
one-character tag bodies. -/
theorem stripTags_second_tag_on_heading_line (x y : Char)
    (hx : isTagChar x = true) (hy : isTagChar y = true) :
    stripTagsL ['#', '#', ' ', '#', x, ' ', '#', y] = ['#', '#', ' ', '#', x, ' '] := by
  have hxnl := isTagChar_ne_nl x hx
  have hxws := isTagChar_not_ws x hx
  have hyws := isTagChar_not_ws y hy
  have h1 : isTagChar '#' = false := by decide
  have h2 : isTagChar ' ' = false := by decide
  have h3 : isJsWs '#' = false := by decide
  have h4 : isJsWs ' ' = true := by decide
  simp [stripTagsL, stripTagsGo_succ, stripTagsGo_fuel_nil, atLineStart, headIsTag,
    headingGuard, lineStartPos, lineStartGo, trimL, List.takeWhile_cons, List.dropWhile_cons,
    hx, hy, hxnl, hxws, hyws, h1, h2, h3, h4]

/-- Witness for the amended claim C4 at the concrete tag bodies `a` and `b`. -/
theorem stripTags_second_tag_on_heading_line_witness :
    stripTagsL ['#', '#', ' ', '#', 'a', ' ', '#', 'b'] = ['#', '#', ' ', '#', 'a', ' '] :=
  stripTags_second_tag_on_heading_line 'a' 'b' (by decide) (by decide)

theorem claimSweepGo_calls (remote : String → String → Except String ClaimResult)
    (tc : List (String × PublishedNote)) :
    ∀ notes, (claimSweepGo remote tc notes).2
      = tc.filterMap (fun pn => pn.2.editToken.map (fun t => (pn.2.slug, t))) := by
  induction tc with
  | nil => intro notes; simp [claimSweepGo]
  | cons hd rest ih =>
    intro notes
    obtain ⟨p, n⟩ := hd
    cases ht : n.editToken with
    | some tok => simp [claimSweepGo, ht, ih]
    | none => simp [claimSweepGo, ht, ih]

theorem filterMap_tokened (notes : List (String × PublishedNote)) :
    (notes.filter (fun pn => pn.2.editToken.isSome)).filterMap
        (fun pn => pn.2.editToken.map (fun t => (pn.2.slug, t)))
      = notes.filterMap (fun pn => pn.2.editToken.map (fun t => (pn.2.slug, t))) := by
  induction notes with
  | nil => simp
  | cons hd rest ih =>
    obtain ⟨p, n⟩ := hd
    cases ht : n.editToken with
    | some tok => simp [List.filter_cons, ht, ih]
    | none => simp [List.filter_cons, ht, ih]

theorem claimSweepGo_untouched (remote : String → String → Except String ClaimResult)
    (tc : List (String × PublishedNote)) :
    ∀ notes q, q ∉ tc.map Prod.fst →
      lookupKey (claimSweepGo remote tc notes).1 q = lookupKey notes q := by
  induction tc with
  | nil => intro notes q _; simp [claimSweepGo]
  | cons hd rest ih =>
    intro notes q hq
    obtain ⟨p, n⟩ := hd
    simp only [List.map_cons, List.mem_cons] at hq
    push_neg at hq
    cases ht : n.editToken with
    | some tok =>
      cases hr : remote n.slug tok with
      | ok r =>
        simp only [claimSweepGo, ht, hr]
        rw [ih _ q hq.2, lookupKey_setKey_ne _ _ _ _ hq.1]
      | error e =>
        simp only [claimSweepGo, ht, hr]
        exact ih _ q hq.2
    | none =>
      simp only [claimSweepGo, ht]
      exact ih _ q hq.2

theorem claimSweepGo_entry (remote : String → String → Except String ClaimResult)
    (l₁ : List (String × PublishedNote)) :
    ∀ (notes l₂ : List (String × PublishedNote)) (p : String) (n : PublishedNote)
      (tok : String), p ∉ l₁.map Prod.fst → p ∉ l₂.map Prod.fst →
      n.editToken = some tok →
      lookupKey (claimSweepGo remote (l₁ ++ (p, n) :: l₂) notes).1 p
        = (match remote n.slug tok with
           | .ok r => some { slug := r.slug, url := r.url, editToken := none,
                             publishedAt := n.publishedAt }
           | .error _ => lookupKey notes p) := by
  induction l₁ with
  | nil =>
    intro notes l₂ p n tok _ h2 ht
    cases hr : remote n.slug tok with
    | ok r =>
      simp only [List.nil_append, claimSweepGo, ht, hr]
      rw [claimSweepGo_untouched remote l₂ _ p h2, lookupKey_setKey_self]
    | error e =>
      simp only [List.nil_append, claimSweepGo, ht, hr]
      rw [claimSweepGo_untouched remote l₂ _ p h2]
  | cons hd rest ih =>
    intro notes l₂ p n tok h1 h2 ht
    obtain ⟨p', n'⟩ := hd
    simp only [List.map_cons, List.mem_cons] at h1
    push_neg at h1
    cases ht' : n'.editToken with
    | some tok' =>
      cases hr' : remote n'.slug tok' with
      | ok r' =>
        simp only [List.cons_append, List.append_eq, claimSweepGo, ht', hr']
        rw [ih _ l₂ p n tok h1.2 h2 ht]
        cases hr : remote n.slug tok with
        | ok cr => rfl
        | error e => exact lookupKey_setKey_ne _ _ _ _ h1.1
      | error e' =>
        simp only [List.cons_append, claimSweepGo, ht', hr']
        exact ih _ l₂ p n tok h1.2 h2 ht
    | none =>
      simp only [List.cons_append, claimSweepGo, ht']
      exact ih _ l₂ p n tok h1.2 h2 ht

theorem mem_unique_of_keysNodup {α : Type} (m : List (String × α))
    (hnd : (m.map Prod.fst).Nodup) {p : String} {a b : α}
    (ha : (p, a) ∈ m) (hb : (p, b) ∈ m) : a = b := by
  induction m with
  | nil => simp at ha
  | cons hd tl ih =>
    obtain ⟨k, v⟩ := hd
    simp only [List.map_cons, List.nodup_cons] at hnd
    rcases List.mem_cons.mp ha with ha' | ha'
    · rcases List.mem_cons.mp hb with hb' | hb'
      · rw [Prod.mk.injEq] at ha' hb'
        exact ha'.2.trans hb'.2.symm
      · exfalso
        apply hnd.1
        rw [Prod.mk.injEq] at ha'
        rw [← ha'.1]
        exact List.mem_map.mpr ⟨(p, b), hb', rfl⟩
    · rcases List.mem_cons.mp hb with hb' | hb'
      · exfalso
        apply hnd.1
        rw [Prod.mk.injEq] at hb'
        rw [← hb'.1]
        exact List.mem_map.mpr ⟨(p, a), ha', rfl⟩
      · exact ih hnd.2 ha' hb'

theorem notMem_filterTokened_keys (notes : List (String × PublishedNote))
    (p : String) (n : PublishedNote) (hnd : (notes.map Prod.fst).Nodup)
    (hmem : lookupKey notes p = some n) (ht : n.editToken = none) :
    p ∉ (notes.filter (fun pn => pn.2.editToken.isSome)).map Prod.fst := by
  intro hp
  obtain ⟨⟨p', n'⟩, hmem', hfst⟩ := List.mem_map.mp hp
  obtain ⟨hin, hpred⟩ := List.mem_filter.mp hmem'
  simp only at hfst hpred
  rw [hfst] at hin
  have heq := mem_unique_of_keysNodup notes hnd (lookupKey_some_mem notes p n hmem) hin
  rw [← heq, ht] at hpred
  simp at hpred

/-- Claim C5: during the claim sweep over all records carrying an edit token,
a record whose claim call succeeds is replaced by the server's fresh slug and
url with the edit token dropped (keeping its timestamp); a record whose claim
call fails is left completely unchanged; and the sweep issues one claim call
for every token-carrying record — in snapshot order, regardless of earlier
failures — so a failure never aborts the remaining records. -/
theorem claimSweep_per_record (remote : String → String → Except String ClaimResult)
    (notes : List (String × PublishedNote)) (p : String) (n : PublishedNote)
    (hnd : (notes.map Prod.fst).Nodup) (hmem : lookupKey notes p = some n) :
    (∀ tok r, n.editToken = some tok → remote n.slug tok = .ok r →
        lookupKey (claimAnonymousDocuments remote notes).1 p
          = some { slug := r.slug, url := r.url, editToken := none,
                   publishedAt := n.publishedAt })
    ∧ (∀ tok e, n.editToken = some tok → remote n.slug tok = .error e →
        lookupKey (claimAnonymousDocuments remote notes).1 p = some n)
    ∧ (n.editToken = none →
        lookupKey (claimAnonymousDocuments remote notes).1 p = some n)
    ∧ (claimAnonymousDocuments remote notes).2
        = notes.filterMap (fun pn => pn.2.editToken.map (fun t => (pn.2.slug, t))) := by
  have hmem' : (p, n) ∈ notes := lookupKey_some_mem notes p n hmem
  have hkey : ∀ tok, n.editToken = some tok →
      ∀ r : Except String ClaimResult, remote n.slug tok = r →
      lookupKey (claimAnonymousDocuments remote notes).1 p
        = (match r with
           | .ok cr => some { slug := cr.slug, url := cr.url, editToken := none,
                              publishedAt := n.publishedAt }
           | .error _ => lookupKey notes p) := by
    intro tok ht r hr
    have hfil : (p, n) ∈ notes.filter (fun pn => pn.2.editToken.isSome) :=
      List.mem_filter.mpr ⟨hmem', by simp [ht]⟩
    obtain ⟨l₁, l₂, hsplit⟩ := List.append_of_mem hfil
    have hndf : ((notes.filter (fun pn => pn.2.editToken.isSome)).map Prod.fst).Nodup :=
      hnd.sublist ((List.filter_sublist _).map Prod.fst)
    rw [hsplit] at hndf
    simp only [List.map_append, List.map_cons] at hndf
    have h1 : p ∉ l₁.map Prod.fst := by
      have hdis := List.disjoint_of_nodup_append hndf
      intro hp
      exact hdis hp (List.mem_cons_self _ _)
    have h2 : p ∉ l₂.map Prod.fst := by
      have := (List.nodup_append.mp hndf).2.1
      exact (List.nodup_cons.mp this).1
    rw [claimAnonymousDocuments, hsplit, ← hr]
    exact claimSweepGo_entry remote l₁ notes l₂ p n tok h1 h2 ht
  refine ⟨?_, ?_, ?_, ?_⟩
  · intro tok r ht hr
    have := hkey tok ht (.ok r) hr
    simpa using this
  · intro tok e ht hr
    have := hkey tok ht (.error e) hr
    simpa [hmem] using this
  · intro ht
    rw [claimAnonymousDocuments,
      claimSweepGo_untouched remote _ notes p (notMem_filterTokened_keys notes p n hnd hmem ht)]
    exact hmem
  · rw [claimAnonymousDocuments, claimSweepGo_calls, filterMap_tokened]

/-- Witness for claim C5: with two anonymous records where the first claim
call fails and the second succeeds, the failing record keeps its token, and
both claim calls are issued. -/
theorem claimSweep_per_record_witness :
    lookupKey
        (claimAnonymousDocuments
          (fun s _ => if s == "fail-doc" then Except.error "Claim: Document not found"
            else Except.ok { slug := s, url := "https://share.jotbird.com/ok-doc",
                             expiresAt := some "2026-05-20", ttlDays := some 90 })
          [("notes/fail.md",
            { slug := "fail-doc", url := "https://share.jotbird.com/fail-doc",
              editToken := some "tok_fail", publishedAt := "2026-01-15" }),
           ("notes/ok.md",
            { slug := "ok-doc", url := "https://share.jotbird.com/ok-doc",
              editToken := some "tok_ok", publishedAt := "2026-01-20" })]).1
        "notes/fail.md"
      = some { slug := "fail-doc", url := "https://share.jotbird.com/fail-doc",
               editToken := some "tok_fail", publishedAt := "2026-01-15" }
    ∧ (claimAnonymousDocuments
          (fun s _ => if s == "fail-doc" then Except.error "Claim: Document not found"
            else Except.ok { slug := s, url := "https://share.jotbird.com/ok-doc",
                             expiresAt := some "2026-05-20", ttlDays := some 90 })
          [("notes/fail.md",
            { slug := "fail-doc", url := "https://share.jotbird.com/fail-doc",
              editToken := some "tok_fail", publishedAt := "2026-01-15" }),
           ("notes/ok.md",
            { slug := "ok-doc", url := "https://share.jotbird.com/ok-doc",
              editToken := some "tok_ok", publishedAt := "2026-01-20" })]).2
      = [("fail-doc", "tok_fail"), ("ok-doc", "tok_ok")] := by
  have h := claimSweep_per_record
    (fun s _ => if s == "fail-doc" then Except.error "Claim: Document not found"
      else Except.ok { slug := s, url := "https://share.jotbird.com/ok-doc",
                       expiresAt := some "2026-05-20", ttlDays := some 90 })
    [("notes/fail.md",
      { slug := "fail-doc", url := "https://share.jotbird.com/fail-doc",
        editToken := some "tok_fail", publishedAt := "2026-01-15" }),
     ("notes/ok.md",
      { slug := "ok-doc", url := "https://share.jotbird.com/ok-doc",
        editToken := some "tok_ok", publishedAt := "2026-01-20" })]
    "notes/fail.md"
    { slug := "fail-doc", url := "https://share.jotbird.com/fail-doc",
      editToken := some "tok_fail", publishedAt := "2026-01-15" }
    (by decide) (by decide)
  exact ⟨h.2.1 "tok_fail" "Claim: Document not found" rfl rfl, h.2.2.2⟩

theorem sweepNever_preserves (l : List (String × PublishedNote)) :
    ∀ (hs : List (String × String)) (excl q : String),
      lookupKey hs q = some "never" →
      lookupKey (sweepNever hs l excl) q = some "never" := by
  induction l with
  | nil => intro hs excl q h; simpa [sweepNever] using h
  | cons hd rest ih =>
    intro hs excl q h
    obtain ⟨p, m⟩ := hd
    show lookupKey (sweepNever (if (p == excl) then hs else setKey hs p "never") rest excl) q
        = some "never"
    by_cases hpe : p = excl
    · simpa [sweepNever, hpe] using ih hs excl q h
    · apply ih
      by_cases hpq : p = q
      · subst hpq
        simp [hpe, lookupKey_setKey_self]
      · simp only [beq_iff_eq, hpe, if_false]
        rw [lookupKey_setKey_ne _ _ _ _ (Ne.symm hpq)]
        exact h

theorem sweepNever_hits (l : List (String × PublishedNote)) :
    ∀ (hs : List (String × String)) (excl q : String),
      q ∈ l.map Prod.fst → q ≠ excl →
      lookupKey (sweepNever hs l excl) q = some "never" := by
  induction l with
  | nil => intro hs excl q h _; simp at h
  | cons hd rest ih =>
    intro hs excl q hq hqe
    obtain ⟨p, m⟩ := hd
    show lookupKey (sweepNever (if (p == excl) then hs else setKey hs p "never") rest excl) q
        = some "never"
    by_cases hpq : p = q
    · subst hpq
      have : (p == excl) = false := by simpa using hqe
      rw [this]
      simp only [Bool.false_eq_true, if_false]
      exact sweepNever_preserves rest _ excl p (lookupKey_setKey_self hs p "never")
    · have hq' : q ∈ rest.map Prod.fst := by
        simp only [List.map_cons, List.mem_cons] at hq
        rcases hq with h | h
        · exact absurd h.symm hpq
        · exact h
      exact ih _ excl q hq' hqe

theorem mem_keys_setKey {α : Type} (m : List (String × α)) (k q : String) (v : α)
    (h : q ∈ m.map Prod.fst) : q ∈ (setKey m k v).map Prod.fst := by
  rw [keys_setKey]
  by_cases hk : k ∈ m.map Prod.fst
  · simpa [hk] using h
  · simp only [hk, if_false]
    exact List.mem_append_left _ h

theorem stepPro_done_preserved (s : SessionState) (op : ProOp)
    (h : s.proRefreshDone = true) :
    (stepPro s op).1.proRefreshDone = true ∧ ((stepPro s op).2 && op.isPublish) = false := by
  cases op with
  | publish path r =>
    have hc : (ttlFalsy r.ttlDays && !s.proRefreshDone) = false := by simp [h]
    simp [stepPro, hc, h]
  | statusCheck b => simp [stepPro, ProOp.isPublish, h]
  | proUpgrade b =>
    cases b with
    | true => simp [stepPro, ProOp.isPublish]
    | false => simp [stepPro, ProOp.isPublish, h]

theorem stepPro_swept_done (s : SessionState) (op : ProOp)
    (h : (stepPro s op).2 = true) : (stepPro s op).1.proRefreshDone = true := by
  cases op with
  | publish path r =>
    cases hc : (ttlFalsy r.ttlDays && !s.proRefreshDone) with
    | true => simp [stepPro, hc]
    | false => simp [stepPro, hc] at h
  | statusCheck b => simp [stepPro] at h
  | proUpgrade b =>
    cases b with
    | true => simp [stepPro]
    | false => simp [stepPro] at h

theorem runPro_zero_of_done (ops : List ProOp) :
    ∀ s : SessionState, s.proRefreshDone = true → (runPro s ops).2 = 0 := by
  induction ops with
  | nil => intro s _; simp [runPro]
  | cons op rest ih =>
    intro s h
    obtain ⟨hdone, hsw⟩ := stepPro_done_preserved s op h
    simp [runPro, hsw, ih _ hdone]

/-- Claim C6, counterexample: a bare status check that observes the permanent
tier triggers no sweep at all — on a fresh session with a tracked record,
`checkProStatus` reporting Pro leaves every mirrored header untouched and
invokes no refresh, while the claim says the first status check observing a
permanent tier rewrites every other tracked record's header. -/
theorem statusCheck_triggers_no_sweep :
    (stepPro
        { isPro := false, proRefreshDone := false, storeFrontmatter := true,
          notes := [("notes/other1.md",
            { slug := "other-1", url := "https://share.jotbird.com/other-1",
              editToken := none, publishedAt := "2026-01-01" })],
          expires := [("notes/other1.md", "2026-04-01")] }
        (ProOp.statusCheck true)).2 = false
    ∧ (stepPro
        { isPro := false, proRefreshDone := false, storeFrontmatter := true,
          notes := [("notes/other1.md",
            { slug := "other-1", url := "https://share.jotbird.com/other-1",
              editToken := none, publishedAt := "2026-01-01" })],
          expires := [("notes/other1.md", "2026-04-01")] }
        (ProOp.statusCheck true)).1.expires = [("notes/other1.md", "2026-04-01")]
    ∧ (stepPro
        { isPro := false, proRefreshDone := false, storeFrontmatter := true,
          notes := [("notes/other1.md",
            { slug := "other-1", url := "https://share.jotbird.com/other-1",
              editToken := none, publishedAt := "2026-01-01" })],
          expires := [("notes/other1.md", "2026-04-01")] }
        (ProOp.statusCheck true)).1.isPro = true := by
  refine ⟨rfl, rfl, rfl⟩

/-- Claim C6 (amended): a bare status check never triggers the sweep (it only
records the tier).  A successful publish triggers `refreshProExpiration`
exactly when its response's `ttlDays` is falsy and the one-shot flag is still
unset; when it does (with header mirroring enabled), every other tracked
record's mirrored expiration is rewritten to "never".  Publish-triggered
sweeps happen at most once per loaded state, because the flag is set and never
cleared; the `upgraded=1` protocol handler, however, sweeps on every Pro
observation without consulting the flag. -/
theorem proRefresh_behavior :
    (∀ (s : SessionState) (b : Bool),
        (stepPro s (ProOp.statusCheck b)).2 = false
        ∧ (stepPro s (ProOp.statusCheck b)).1.expires = s.expires)
    ∧ (∀ (s : SessionState) (path : String) (r : PublishResult),
        (stepPro s (ProOp.publish path r)).2
          = (ttlFalsy r.ttlDays && !s.proRefreshDone))
    ∧ (∀ (s : SessionState) (path : String) (r : PublishResult) (q : String),
        s.storeFrontmatter = true → ttlFalsy r.ttlDays = true →
        s.proRefreshDone = false → q ≠ path → (lookupKey s.notes q).isSome = true →
        lookupKey (stepPro s (ProOp.publish path r)).1.expires q = some "never")
    ∧ (∀ (s : SessionState) (ops : List ProOp), (runPro s ops).2 ≤ 1) := by
  refine ⟨?_, ?_, ?_, ?_⟩
  · intro s b
    exact ⟨rfl, rfl⟩
  · intro s path r
    cases hc : (ttlFalsy r.ttlDays && !s.proRefreshDone) with
    | true => simp [stepPro, hc]
    | false => simp [stepPro, hc]
  · intro s path r q hsf httl hdone hqp hq
    have hc : (ttlFalsy r.ttlDays && !s.proRefreshDone) = true := by
      simp [httl, hdone]
    have hqmem : q ∈ s.notes.map Prod.fst := by
      cases hl : lookupKey s.notes q with
      | none => rw [hl] at hq; simp at hq
      | some v => exact lookupKey_some_mem_keys s.notes q v hl
    have hqmem' : q ∈ (setKey s.notes path
        { slug := r.slug, url := r.url, editToken := r.editToken,
          publishedAt := "" }).map Prod.fst :=
      mem_keys_setKey _ _ _ _ hqmem
    simp only [stepPro, hc, if_true, hsf]
    exact sweepNever_hits _ _ _ _ hqmem' hqp
  · intro s ops
    induction ops generalizing s with
    | nil => simp [runPro]
    | cons op rest ih =>
      cases hsw : ((stepPro s op).2 && op.isPublish) with
      | true =>
        have hdone := stepPro_swept_done s op (by
          cases h2 : (stepPro s op).2 with
          | true => rfl
          | false => rw [h2] at hsw; simp at hsw)
        simp [runPro, hsw, runPro_zero_of_done rest _ hdone]
      | false =>
        simpa [runPro, hsw] using ih (stepPro s op).1

/-- Witness for the amended claim C6: a Pro publish on a fresh session
rewrites another tracked record's mirrored expiration to "never". -/
theorem proRefresh_behavior_witness :
    lookupKey
        (stepPro
          { isPro := false, proRefreshDone := false, storeFrontmatter := true,
            notes := [("notes/other1.md",
              { slug := "other-1", url := "https://share.jotbird.com/other-1",
                editToken := none, publishedAt := "2026-01-01" })],
            expires := [("notes/other1.md", "2026-04-01")] }
          (ProOp.publish "notes/pro.md"
            { slug := "pro-publish", url := "https://share.jotbird.com/pro-publish",
              editToken := none, expiresAt := some "", ttlDays := none })).1.expires
        "notes/other1.md"
      = some "never" :=
  proRefresh_behavior.2.2.1
    { isPro := false, proRefreshDone := false, storeFrontmatter := true,
      notes := [("notes/other1.md",
        { slug := "other-1", url := "https://share.jotbird.com/other-1",
          editToken := none, publishedAt := "2026-01-01" })],
      expires := [("notes/other1.md", "2026-04-01")] }
    "notes/pro.md"
    { slug := "pro-publish", url := "https://share.jotbird.com/pro-publish",
      editToken := none, expiresAt := some "", ttlDays := none }
    "notes/other1.md" rfl rfl rfl (by decide) (by decide)

end JotBird
